import Mathlib

/-!
Shallow embedding of the learn-wgpu renderer core (src/camera.rs, src/model.rs,
src/main.rs, src/light.rs).  Machine floats (f32/f64) are modelled by the real
numbers; vectors and quaternions follow the cgmath operations the source calls.
Definitions are translated from the source files; definitions that follow the
specification text instead are marked as such in their doc comments.
-/

namespace LearnWgpu

/-- A 3-component vector (cgmath Vector3 of f32), components modelled as reals. -/
structure V3 where
  x : ℝ
  y : ℝ
  z : ℝ

/-- A 2-component vector (cgmath Vector2 of f32). -/
structure V2 where
  x : ℝ
  y : ℝ

/-- Componentwise vector addition. -/
def V3.add (a b : V3) : V3 := ⟨a.x + b.x, a.y + b.y, a.z + b.z⟩

/-- Componentwise vector subtraction. -/
def V3.sub (a b : V3) : V3 := ⟨a.x - b.x, a.y - b.y, a.z - b.z⟩

/-- Scalar multiplication of a vector. -/
def V3.smul (c : ℝ) (a : V3) : V3 := ⟨c * a.x, c * a.y, c * a.z⟩

/-- Dot product. -/
def V3.dot (a b : V3) : ℝ := a.x * b.x + a.y * b.y + a.z * b.z

/-- Componentwise subtraction of 2-vectors. -/
def V2.sub (a b : V2) : V2 := ⟨a.x - b.x, a.y - b.y⟩

/-- Vector magnitude, cgmath InnerSpace::magnitude, the square root of the dot
square. -/
noncomputable def V3.magnitude (a : V3) : ℝ := Real.sqrt (a.dot a)

/-- cgmath InnerSpace::normalize: the vector scaled by the reciprocal of its
magnitude. -/
noncomputable def V3.normalize (a : V3) : V3 := V3.smul (1 / a.magnitude) a

/-- A quaternion (cgmath Quaternion of f32): scalar part plus vector part. -/
structure Quat where
  s : ℝ
  v : V3

/-- Degrees to radians, the cgmath conversion from Deg to Rad. -/
noncomputable def degToRad (d : ℝ) : ℝ := d * Real.pi / 180

/-- cgmath Rotation3::from_axis_angle, built from the half angle: scalar part
cos of half the angle, vector part the axis scaled by sin of half the angle. -/
noncomputable def fromAxisAngle (axis : V3) (angle : ℝ) : Quat :=
  ⟨Real.cos (angle / 2), V3.smul (Real.sin (angle / 2)) axis⟩

/-! ## src/camera.rs -/

/-- Camera state: src/camera.rs lines 6-15.  Angles are radians. -/
structure Camera where
  position : V3
  yaw : ℝ
  pitch : ℝ
  aspect : ℝ
  fovy : ℝ
  near : ℝ
  far : ℝ

/-- src/camera.rs line 65: FRAC_PI_2 - 0.0001, the symmetric pitch clamp bound. -/
noncomputable def SAFE_FRAC_PI_2 : ℝ := Real.pi / 2 - 0.0001

/-- A homogeneous 4-component vector. -/
structure V4 where
  x : ℝ
  y : ℝ
  z : ℝ
  w : ℝ

/-- A 4 by 4 matrix, entries named row-then-column. -/
structure Mat4 where
  m00 : ℝ
  m01 : ℝ
  m02 : ℝ
  m03 : ℝ
  m10 : ℝ
  m11 : ℝ
  m12 : ℝ
  m13 : ℝ
  m20 : ℝ
  m21 : ℝ
  m22 : ℝ
  m23 : ℝ
  m30 : ℝ
  m31 : ℝ
  m32 : ℝ
  m33 : ℝ

/-- Matrix times column vector. -/
def Mat4.mulVec (m : Mat4) (v : V4) : V4 :=
  ⟨m.m00 * v.x + m.m01 * v.y + m.m02 * v.z + m.m03 * v.w,
   m.m10 * v.x + m.m11 * v.y + m.m12 * v.z + m.m13 * v.w,
   m.m20 * v.x + m.m21 * v.y + m.m22 * v.z + m.m23 * v.w,
   m.m30 * v.x + m.m31 * v.y + m.m32 * v.z + m.m33 * v.w⟩

/-- Matrix product. -/
def Mat4.mul (a b : Mat4) : Mat4 :=
  ⟨a.m00 * b.m00 + a.m01 * b.m10 + a.m02 * b.m20 + a.m03 * b.m30,
   a.m00 * b.m01 + a.m01 * b.m11 + a.m02 * b.m21 + a.m03 * b.m31,
   a.m00 * b.m02 + a.m01 * b.m12 + a.m02 * b.m22 + a.m03 * b.m32,
   a.m00 * b.m03 + a.m01 * b.m13 + a.m02 * b.m23 + a.m03 * b.m33,
   a.m10 * b.m00 + a.m11 * b.m10 + a.m12 * b.m20 + a.m13 * b.m30,
   a.m10 * b.m01 + a.m11 * b.m11 + a.m12 * b.m21 + a.m13 * b.m31,
   a.m10 * b.m02 + a.m11 * b.m12 + a.m12 * b.m22 + a.m13 * b.m32,
   a.m10 * b.m03 + a.m11 * b.m13 + a.m12 * b.m23 + a.m13 * b.m33,
   a.m20 * b.m00 + a.m21 * b.m10 + a.m22 * b.m20 + a.m23 * b.m30,
   a.m20 * b.m01 + a.m21 * b.m11 + a.m22 * b.m21 + a.m23 * b.m31,
   a.m20 * b.m02 + a.m21 * b.m12 + a.m22 * b.m22 + a.m23 * b.m32,
   a.m20 * b.m03 + a.m21 * b.m13 + a.m22 * b.m23 + a.m23 * b.m33,
   a.m30 * b.m00 + a.m31 * b.m10 + a.m32 * b.m20 + a.m33 * b.m30,
   a.m30 * b.m01 + a.m31 * b.m11 + a.m32 * b.m21 + a.m33 * b.m31,
   a.m30 * b.m02 + a.m31 * b.m12 + a.m32 * b.m22 + a.m33 * b.m32,
   a.m30 * b.m03 + a.m31 * b.m13 + a.m32 * b.m23 + a.m33 * b.m33⟩

/-- src/camera.rs lines 57-63.  The cgmath Matrix4::new call lists the entries
column by column: the columns are (1,0,0,0), (0,1,0,0), (0,0,0.5,0), and
(0,0,0.5,1); written here in row-major field order. -/
noncomputable def OPENGL_TO_WGPU_MATRIX : Mat4 :=
  ⟨1, 0, 0, 0,
   0, 1, 0, 0,
   0, 0, 0.5, 0.5,
   0, 0, 0, 1⟩

/-- Cotangent, the cgmath Rad::cot used by perspective. -/
noncomputable def cot (x : ℝ) : ℝ := Real.cos x / Real.sin x

/-- cgmath::perspective, the right-handed OpenGL-convention projection matrix
built from a vertical field of view, aspect ratio and near/far planes.  The
cgmath source fills columns c0 = (f/aspect,0,0,0), c1 = (0,f,0,0),
c2 = (0,0,(far+near)/(near-far),-1), c3 = (0,0,2*far*near/(near-far),0) with
f the cotangent of half the field of view; written here row-major. -/
noncomputable def perspective (fovy aspect near far : ℝ) : Mat4 :=
  let f := cot (fovy / 2)
  ⟨f / aspect, 0, 0, 0,
   0, f, 0, 0,
   0, 0, (far + near) / (near - far), 2 * far * near / (near - far),
   0, 0, -1, 0⟩

/-- src/camera.rs lines 48-50: resize updates the aspect ratio only, to the
ratio of the new width and height. -/
noncomputable def Camera.resize (c : Camera) (width height : ℕ) : Camera :=
  { c with aspect := (width : ℝ) / (height : ℝ) }

/-- src/camera.rs lines 52-54: the projection matrix, the depth-range remap
composed with the cgmath perspective matrix. -/
noncomputable def Camera.projection (c : Camera) : Mat4 :=
  Mat4.mul OPENGL_TO_WGPU_MATRIX (perspective c.fovy c.aspect c.near c.far)

/-- Depth of a clip-space point after perspective division: z over w. -/
noncomputable def depthOf (v : V4) : ℝ := v.z / v.w

/-- Camera controller state: src/camera.rs lines 89-101. -/
structure Controller where
  amount_left : ℝ
  amount_right : ℝ
  amount_forward : ℝ
  amount_backward : ℝ
  amount_up : ℝ
  amount_down : ℝ
  rotate_horizontal : ℝ
  rotate_vertical : ℝ
  speed : ℝ
  fast : Bool
  sensitivity : ℝ

/-- src/camera.rs lines 104-118: a fresh controller, all amounts and deltas
zero, fast off. -/
def Controller.new (speed sensitivity : ℝ) : Controller :=
  { amount_left := 0
    amount_right := 0
    amount_forward := 0
    amount_backward := 0
    amount_up := 0
    amount_down := 0
    rotate_horizontal := 0
    rotate_vertical := 0
    speed := speed
    fast := false
    sensitivity := sensitivity }

/-- The keyboard keys visible to process_keyboard: the eleven keycodes the
match names, plus a constructor for every other keycode of the windowing
library (winit VirtualKeyCode is a large flat enum; unlisted variants all fall
to the wildcard arm). -/
inductive Key where
  | w | up | s | down | a | left | d | right | space | lcontrol | lshift
  | other (code : ℕ)

/-- src/camera.rs lines 120-157.  The second component of the result is the
boolean the Rust method returns; pressed true models ElementState::Pressed. -/
def Controller.process_keyboard (c : Controller) (key : Key) (pressed : Bool) :
    Controller × Bool :=
  let amount : ℝ := if pressed then 1 else 0
  match key with
  | .w | .up => ({ c with amount_forward := amount }, true)
  | .s | .down => ({ c with amount_backward := amount }, true)
  | .a | .left => ({ c with amount_left := amount }, true)
  | .d | .right => ({ c with amount_right := amount }, true)
  | .space => ({ c with amount_up := amount }, true)
  | .lcontrol => ({ c with amount_down := amount }, true)
  | .lshift => ({ c with fast := pressed }, true)
  | .other _ => (c, false)

/-- src/camera.rs lines 159-162: the mouse deltas are written (not added) into
the two rotation fields. -/
def Controller.process_mouse (c : Controller) (mouse_dx mouse_dy : ℝ) : Controller :=
  { c with rotate_horizontal := mouse_dx, rotate_vertical := mouse_dy }

/-- src/camera.rs lines 164-200: one controller update of the camera over an
elapsed time dt (seconds).  Returns the mutated controller and camera. -/
noncomputable def Controller.update_camera (c : Controller) (cam : Camera) (dt : ℝ) :
    Controller × Camera :=
  let speed := if c.fast then c.speed * 2 else c.speed
  let yaw_sin := Real.sin cam.yaw
  let yaw_cos := Real.cos cam.yaw
  let forward := V3.normalize ⟨yaw_cos, 0, yaw_sin⟩
  let right := V3.normalize ⟨-yaw_sin, 0, yaw_cos⟩
  let pos1 := V3.add cam.position
    (V3.smul ((c.amount_forward - c.amount_backward) * speed * dt) forward)
  let pos2 := V3.add pos1
    (V3.smul ((c.amount_right - c.amount_left) * speed * dt) right)
  let pos3 : V3 := { pos2 with y := pos2.y + (c.amount_up - c.amount_down) * speed * dt }
  let yaw := cam.yaw + c.rotate_horizontal * c.sensitivity * dt
  let pitch0 := cam.pitch + -c.rotate_vertical * c.sensitivity * dt
  let pitch :=
    if pitch0 < -SAFE_FRAC_PI_2 then -SAFE_FRAC_PI_2
    else if pitch0 > SAFE_FRAC_PI_2 then SAFE_FRAC_PI_2
    else pitch0
  ({ c with rotate_horizontal := 0, rotate_vertical := 0 },
   { cam with position := pos3, yaw := yaw, pitch := pitch })

/-- An input or frame event feeding the controller, as routed by State::input
and the redraw arm of the event loop in src/main.rs. -/
inductive Event where
  | mouse (dx dy : ℝ)
  | key (k : Key) (pressed : Bool)
  | update (dt : ℝ)

/-- Applies one event to the controller/camera pair. -/
noncomputable def applyEvent (st : Controller × Camera) : Event → Controller × Camera
  | .mouse dx dy => (st.1.process_mouse dx dy, st.2)
  | .key k pressed => ((st.1.process_keyboard k pressed).1, st.2)
  | .update dt => st.1.update_camera st.2 dt

/-- Applies a finite sequence of events in order. -/
noncomputable def runEvents (st : Controller × Camera) (evs : List Event) :
    Controller × Camera :=
  evs.foldl applyEvent st

/-! ## src/model.rs -/

/-- Byte size of the ModelVertex struct of src/model.rs lines 20-28: a repr(C)
struct of f32 fields, in order 3-float position, 2-float tex_coords, 3-float
normal, 3-float tangent, 3-float bitangent, each f32 four bytes, no padding. -/
def ModelVertex.sizeBytes : ℕ := 4 * 3 + 4 * 2 + 4 * 3 + 4 * 3 + 4 * 3

/-- The attribute byte offsets of the ModelVertex vertex-buffer descriptor,
src/model.rs lines 36-67: 0, then size_of of 3, 5, 8 and 11 f32 values. -/
def ModelVertex.attributeOffsets : List ℕ := [0, 4 * 3, 4 * 5, 4 * 8, 4 * 11]

/-- Groups an index list into triangles, three indices at a time, as the
chunks(3) loop of src/model.rs line 184 reads them (a trailing chunk of fewer
than three indices would make the Rust loop panic on idx[1]; well-formed
triangle lists have a multiple of three indices). -/
def toTriangles : List ℕ → List (ℕ × ℕ × ℕ)
  | a :: b :: c :: rest => (a, b, c) :: toTriangles rest
  | _ => []

/-- Increments entry i of a counter list (the += 1 on an indexed Vec entry). -/
def bumpAt (l : List ℕ) (i : ℕ) : List ℕ := l.set i (l.getD i 0 + 1)

/-- The per-vertex divisor vector of Model::load, src/model.rs lines 182 and
205-207: the counter list is initialized by collecting the range 0..len, so
entry i starts at i, and each triangle increments the entries of its three
vertex indices. -/
def trianglesIncluded (numVertices : ℕ) (indices : List ℕ) : List ℕ :=
  (toTriangles indices).foldl
    (fun acc t => bumpAt (bumpAt (bumpAt acc t.1) t.2.1) t.2.2)
    (List.range numVertices)

/-- Modelled from the spec: the per-vertex triangle-adjacency counter, starting
from zero and incremented once per referencing triangle (the counter
Model::load was specified to divide by). -/
def adjacencyCounts (numVertices : ℕ) (indices : List ℕ) : List ℕ :=
  (toTriangles indices).foldl
    (fun acc t => bumpAt (bumpAt (bumpAt acc t.1) t.2.1) t.2.2)
    (List.replicate numVertices 0)

/-- The per-triangle tangent and bitangent of src/model.rs lines 190-196,
from the two position edges and the two UV deltas of a triangle. -/
noncomputable def triangleTB (p0 p1 p2 : V3) (uv0 uv1 uv2 : V2) : V3 × V3 :=
  let dpos1 := V3.sub p1 p0
  let dpos2 := V3.sub p2 p0
  let duv1 := V2.sub uv1 uv0
  let duv2 := V2.sub uv2 uv0
  let r := 1 / (duv1.x * duv2.y - duv1.y * duv2.x)
  (V3.smul r (V3.sub (V3.smul duv2.y dpos1) (V3.smul duv1.y dpos2)),
   V3.smul r (V3.sub (V3.smul duv1.x dpos2) (V3.smul duv2.x dpos1)))

/-- The final per-vertex pass of Model::load, src/model.rs lines 210-215: the
accumulated vector is scaled by the reciprocal of the per-vertex divisor n and
then normalized. -/
noncomputable def finalizeVertex (acc : V3) (n : ℕ) : V3 :=
  V3.normalize (V3.smul (1 / (n : ℝ)) acc)

/-! ## src/main.rs -/

/-- Byte size of the InstanceData struct of src/main.rs lines 41-46: a repr(C)
struct holding a 4 by 4 f32 model matrix then a 3 by 3 f32 normal matrix. -/
def InstanceData.sizeBytes : ℕ := 4 * 16 + 4 * 9

/-- The attribute byte offsets of the InstanceData vertex-buffer descriptor,
src/main.rs lines 54-92: four vec4 rows of the model matrix then three vec3
rows of the normal matrix. -/
def InstanceData.attributeOffsets : List ℕ :=
  [0, 4 * 4, 4 * 8, 4 * 12, 4 * 16, 4 * 19, 4 * 22]

/-- src/main.rs line 97. -/
def NUM_INSTANCES_PER_ROW : ℕ := 10

/-- src/main.rs line 99. -/
def SPACE_BETWEEN : ℝ := 3

/-- One positioned, oriented copy of the mesh, src/main.rs lines 25-28. -/
structure Instance where
  position : V3
  rotation : Quat

/-- The identity rotation, the quaternion with scalar part one and zero vector
part; the spec says the grid-center instance gets this rotation. -/
def idQuat : Quat := ⟨1, ⟨0, 0, 0⟩⟩

open Classical in
/-- The instance built for grid cell (x, z) in State::new, src/main.rs lines
384-402: position is SPACE_BETWEEN times (x - N/2, 0, z - N/2); if the
position is the zero vector the rotation is from_axis_angle about unit z by 0
degrees, otherwise about the normalized position by 45 degrees. -/
noncomputable def mkInstance (x z : ℕ) : Instance :=
  let position : V3 :=
    ⟨SPACE_BETWEEN * ((x : ℝ) - (NUM_INSTANCES_PER_ROW : ℝ) / 2), 0,
     SPACE_BETWEEN * ((z : ℝ) - (NUM_INSTANCES_PER_ROW : ℝ) / 2)⟩
  { position := position
    rotation :=
      if position = ⟨0, 0, 0⟩ then fromAxisAngle ⟨0, 0, 1⟩ (degToRad 0)
      else fromAxisAngle position.normalize (degToRad 45) }

/-- The full instance grid of State::new: for each row z in 0..N, each column
x in 0..N yields one instance. -/
noncomputable def instancesList : List Instance :=
  (List.range NUM_INSTANCES_PER_ROW).flatMap fun z =>
    (List.range NUM_INSTANCES_PER_ROW).map fun x => mkInstance x z

/-- The wgpu surface-acquisition errors (wgpu::SurfaceError). -/
inductive SurfaceError where
  | timeout | outdated | lost | outOfMemory

/-- The per-frame mutable state the claims touch, a projection of the State
struct of src/main.rs lines 101-122.  The opaque surface is modelled by the
trace of configure calls issued to it; the depth texture by its size, since
Texture::create_depth_texture is not among the provided sources.
Modelled from the spec: the depth buffer is regenerated at the configured
size on resize. -/
structure StateM where
  size : ℕ × ℕ
  configWidth : ℕ
  configHeight : ℕ
  surfaceConfigs : List (ℕ × ℕ)
  depthTextureSize : ℕ × ℕ
  camera : Camera

/-- State::resize, src/main.rs lines 434-446: only when both dimensions are
positive does it store the new size, update the surface configuration,
reconfigure the surface, recreate the depth texture and resize the camera;
otherwise it changes nothing. -/
noncomputable def StateM.resize (st : StateM) (w h : ℕ) : StateM :=
  if 0 < w ∧ 0 < h then
    { st with
      size := (w, h)
      configWidth := w
      configHeight := h
      surfaceConfigs := (w, h) :: st.surfaceConfigs
      depthTextureSize := (w, h)
      camera := st.camera.resize w h }
  else st

/-- The error arm of the render call in the event loop, src/main.rs lines
613-618: Lost resizes at the current size, OutOfMemory sets the control flow
to Exit (second component true), every other error is only printed.  The none
case is the Ok arm. -/
noncomputable def redrawStep (st : StateM) : Option SurfaceError → StateM × Bool
  | none => (st, false)
  | some .lost => (st.resize st.size.1 st.size.2, false)
  | some .outOfMemory => (st, true)
  | some _ => (st, false)

/-! ## Shared sample data -/

/-- A concrete state with an 800 by 600 surface and no configure calls yet
recorded, used to instantiate theorems on concrete inputs. -/
noncomputable def sampleState : StateM :=
  { size := (800, 600)
    configWidth := 800
    configHeight := 600
    surfaceConfigs := []
    depthTextureSize := (800, 600)
    camera :=
      { position := ⟨0, 5, 10⟩
        yaw := 0
        pitch := 0
        aspect := 800 / 600
        fovy := 1
        near := 0.1
        far := 100 } }

/-! ## Theorems -/

/-- C1: the claim reads that the per-vertex divisor of Model::load equals the
number of triangles referencing the vertex, starting from zero.  The code
initializes the counter vector by collecting the range 0..len, so vertex i
starts at i, not 0: on a one-triangle mesh over vertices 0, 1, 2 the divisors
come out 1, 2, 3 while the adjacency counts are 1, 1, 1.  The spec (an
unweighted average over adjacent triangles) is clearly the intent and the
range initialization a slip, so this is a code bug; this theorem evaluates
both counters at the failing input. -/
theorem trianglesIncluded_at_failing_input :
    trianglesIncluded 3 [0, 1, 2] = [1, 2, 3] ∧
    adjacencyCounts 3 [0, 1, 2] = [1, 1, 1] := by
  decide

/-- C6 counterexample: the vertex stride is not 44 bytes and the instance
stride is not 88 bytes. -/
theorem stride_claim_false :
    ¬(ModelVertex.sizeBytes = 44 ∧ InstanceData.sizeBytes = 88) := by
  decide

/-- C6 amended: the ModelVertex layout (3-float position, 2-float UV, 3-float
normal, 3-float tangent, 3-float bitangent, in that order at byte offsets 0,
12, 20, 32, 44) occupies 56 bytes per vertex, and the InstanceData layout
(4 by 4 model matrix then 3 by 3 normal matrix, rows at byte offsets 0, 16,
32, 48, 64, 76, 88) occupies 100 bytes per instance, for 32-bit floats. -/
theorem stride_sizes :
    ModelVertex.sizeBytes = 56 ∧ InstanceData.sizeBytes = 100 ∧
    ModelVertex.attributeOffsets = [0, 12, 20, 32, 44] ∧
    InstanceData.attributeOffsets = [0, 16, 32, 48, 64, 76, 88] := by
  decide

/-- C2 counterexample: an Outdated acquisition error does not reconfigure the
surface — the trace of configure calls stays empty, while the reconfiguration
the claim requires would have recorded the current size. -/
theorem outdated_not_reconfigured :
    (redrawStep sampleState (some SurfaceError.outdated)).1.surfaceConfigs = [] ∧
    (StateM.resize sampleState 800 600).surfaceConfigs = [(800, 600)] ∧
    ([] : List (ℕ × ℕ)) ≠ [(800, 600)] := by
  refine ⟨rfl, ?_, by decide⟩
  norm_num [StateM.resize, sampleState]

/-- C2 amended: a Lost surface error makes the frame handler resize (hence
reconfigure) at the current size and continue without exiting; OutOfMemory
exits the event loop; Outdated and Timeout errors only log and skip the frame
without reconfiguring. -/
theorem surface_error_handling (st : StateM) :
    redrawStep st (some SurfaceError.lost) = (st.resize st.size.1 st.size.2, false) ∧
    redrawStep st (some SurfaceError.outOfMemory) = (st, true) ∧
    redrawStep st (some SurfaceError.outdated) = (st, false) ∧
    redrawStep st (some SurfaceError.timeout) = (st, false) :=
  ⟨rfl, rfl, rfl, rfl⟩

/-- C5 counterexample: two successive process_mouse calls with horizontal
deltas 1 then 3 leave the horizontal rotation field at 3, not at the
accumulated sum 1 + 3; the fields are overwritten, not summed. -/
theorem mouse_deltas_not_accumulated :
    (((Controller.new 4 0.4).process_mouse 1 2).process_mouse 3 4).rotate_horizontal = 3 ∧
    (((Controller.new 4 0.4).process_mouse 1 2).process_mouse 3 4).rotate_horizontal ≠ 1 + 3 := by
  refine ⟨rfl, ?_⟩
  show (3 : ℝ) ≠ 1 + 3
  norm_num

/-- C5 amended: successive process_mouse calls between updates overwrite the
two rotation-delta fields with the latest deltas (last write wins, no
summation), and every update_camera call resets both fields to zero after
applying them, regardless of whether any pointer-motion event occurred. -/
theorem mouse_delta_lifecycle (c : Controller) (cam : Camera)
    (d1 e1 d2 e2 dt : ℝ) :
    ((c.process_mouse d1 e1).process_mouse d2 e2).rotate_horizontal = d2 ∧
    ((c.process_mouse d1 e1).process_mouse d2 e2).rotate_vertical = e2 ∧
    (c.update_camera cam dt).1.rotate_horizontal = 0 ∧
    (c.update_camera cam dt).1.rotate_vertical = 0 :=
  ⟨rfl, rfl, rfl, rfl⟩

/-- C9: process_keyboard handles exactly the eleven mapped keycodes — W/Up,
S/Down, A/Left, D/Right, Space, LControl, LShift — each setting exactly the
one flag of its action to the pressed amount and returning true, while every
other keycode returns false and leaves the controller unchanged. -/
theorem process_keyboard_mapping (c : Controller) (pressed : Bool) (n : ℕ) :
    c.process_keyboard .w pressed =
      ({ c with amount_forward := if pressed then 1 else 0 }, true) ∧
    c.process_keyboard .up pressed =
      ({ c with amount_forward := if pressed then 1 else 0 }, true) ∧
    c.process_keyboard .s pressed =
      ({ c with amount_backward := if pressed then 1 else 0 }, true) ∧
    c.process_keyboard .down pressed =
      ({ c with amount_backward := if pressed then 1 else 0 }, true) ∧
    c.process_keyboard .a pressed =
      ({ c with amount_left := if pressed then 1 else 0 }, true) ∧
    c.process_keyboard .left pressed =
      ({ c with amount_left := if pressed then 1 else 0 }, true) ∧
    c.process_keyboard .d pressed =
      ({ c with amount_right := if pressed then 1 else 0 }, true) ∧
    c.process_keyboard .right pressed =
      ({ c with amount_right := if pressed then 1 else 0 }, true) ∧
    c.process_keyboard .space pressed =
      ({ c with amount_up := if pressed then 1 else 0 }, true) ∧
    c.process_keyboard .lcontrol pressed =
      ({ c with amount_down := if pressed then 1 else 0 }, true) ∧
    c.process_keyboard .lshift pressed = ({ c with fast := pressed }, true) ∧
    c.process_keyboard (.other n) pressed = (c, false) :=
  ⟨rfl, rfl, rfl, rfl, rfl, rfl, rfl, rfl, rfl, rfl, rfl, rfl⟩

/-- C8: a resize with a zero width or height changes nothing, while a resize
with both dimensions positive stores the new size, updates the surface
configuration and issues a configure call at the new size, recreates the
depth texture at the new size, and sets the camera aspect ratio to width over
height. -/
theorem resize_behavior (st : StateM) (w h : ℕ) :
    ((w = 0 ∨ h = 0) → st.resize w h = st) ∧
    (0 < w → 0 < h →
      (st.resize w h).size = (w, h) ∧
      (st.resize w h).configWidth = w ∧
      (st.resize w h).configHeight = h ∧
      (st.resize w h).surfaceConfigs = (w, h) :: st.surfaceConfigs ∧
      (st.resize w h).depthTextureSize = (w, h) ∧
      (st.resize w h).camera.aspect = (w : ℝ) / (h : ℝ)) := by
  constructor
  · rintro (rfl | rfl) <;> simp [StateM.resize]
  · intro hw hh
    simp [StateM.resize, hw, hh, Camera.resize]

/-- C8 witness: the degenerate and nondegenerate resize facts at a concrete
state and concrete sizes. -/
theorem resize_behavior_witness :
    StateM.resize sampleState 0 600 = sampleState ∧
    (StateM.resize sampleState 800 600).camera.aspect =
      ((800 : ℕ) : ℝ) / ((600 : ℕ) : ℝ) :=
  ⟨(resize_behavior sampleState 0 600).1 (Or.inl rfl),
   ((resize_behavior sampleState 800 600).2 (by decide) (by decide)).2.2.2.2.2⟩

/-- The runs of nonzero vectors have positive dot square. -/
lemma dot_self_pos (v : V3) (hv : v ≠ ⟨0, 0, 0⟩) : 0 < v.dot v := by
  rcases v with ⟨x, y, z⟩
  have h : x ≠ 0 ∨ y ≠ 0 ∨ z ≠ 0 := by
    by_contra h
    push_neg at h
    exact hv (by simp [h.1, h.2.1, h.2.2])
  rcases h with h | h | h <;>
  · simp only [V3.dot]
    nlinarith [mul_self_nonneg x, mul_self_nonneg y, mul_self_nonneg z,
      mul_self_pos.mpr h]

/-- A nonzero vector has positive magnitude. -/
lemma magnitude_pos (v : V3) (hv : v ≠ ⟨0, 0, 0⟩) : 0 < v.magnitude :=
  Real.sqrt_pos.mpr (dot_self_pos v hv)

/-- Magnitude scales by a nonnegative scalar factor. -/
lemma magnitude_smul_of_nonneg (c : ℝ) (hc : 0 ≤ c) (v : V3) :
    (V3.smul c v).magnitude = c * v.magnitude := by
  rcases v with ⟨x, y, z⟩
  simp only [V3.magnitude, V3.smul, V3.dot]
  rw [show c * x * (c * x) + c * y * (c * y) + c * z * (c * z)
        = c ^ 2 * (x * x + y * y + z * z) by ring]
  rw [Real.sqrt_mul (sq_nonneg c), Real.sqrt_sq hc]

/-- Composing two scalings is scaling by the product. -/
lemma smul_smul_eq (a b : ℝ) (v : V3) :
    V3.smul a (V3.smul b v) = V3.smul (a * b) v := by
  simp [V3.smul, mul_assoc]

/-- C10: in the final per-vertex pass of Model::load, scaling a nonzero
accumulated vector by the reciprocal of any positive divisor before
normalizing changes nothing — normalize (v scaled by 1/r) equals normalize v
for every r > 0 — so the stored unit tangent and bitangent do not depend on
the per-vertex divisor value. -/
theorem finalize_independent_of_divisor (v : V3) (r : ℝ) (n : ℕ)
    (hv : v ≠ ⟨0, 0, 0⟩) (hr : 0 < r) (hn : 0 < n) :
    V3.normalize (V3.smul (1 / r) v) = V3.normalize v ∧
    finalizeVertex v n = V3.normalize v := by
  have key : ∀ s : ℝ, 0 < s →
      V3.normalize (V3.smul (1 / s) v) = V3.normalize v := by
    intro s hs
    have hm := magnitude_pos v hv
    have h1s : (0 : ℝ) ≤ 1 / s := by positivity
    unfold V3.normalize
    rw [magnitude_smul_of_nonneg _ h1s, smul_smul_eq]
    have hs0 : s ≠ 0 := ne_of_gt hs
    have hm0 : v.magnitude ≠ 0 := ne_of_gt hm
    congr 1
    field_simp
    ring
  refine ⟨key r hr, ?_⟩
  unfold finalizeVertex
  exact key (n : ℝ) (by exact_mod_cast hn)

/-- C10 witness: the divisor independence at the concrete vector (3,4,0) with
real divisor 2 and counter value 2. -/
theorem finalize_independent_of_divisor_witness :
    V3.normalize (V3.smul (1 / 2) ⟨3, 4, 0⟩) = V3.normalize ⟨3, 4, 0⟩ ∧
    finalizeVertex ⟨3, 4, 0⟩ 2 = V3.normalize ⟨3, 4, 0⟩ :=
  finalize_independent_of_divisor ⟨3, 4, 0⟩ 2 2
    (by simp) (by norm_num) (by decide)

/-- The pitch stored by one update_camera call lies inside the clamp bound. -/
lemma update_camera_pitch_bound (c : Controller) (cam : Camera) (dt : ℝ) :
    -SAFE_FRAC_PI_2 ≤ (c.update_camera cam dt).2.pitch ∧
    (c.update_camera cam dt).2.pitch ≤ SAFE_FRAC_PI_2 := by
  have hS : 0 ≤ SAFE_FRAC_PI_2 := by
    unfold SAFE_FRAC_PI_2
    linarith [Real.pi_gt_three]
  simp only [Controller.update_camera]
  split_ifs with h1 h2
  · exact ⟨le_refl _, by linarith⟩
  · exact ⟨by linarith, le_refl _⟩
  · exact ⟨by linarith, by linarith⟩

/-- C3: after any finite sequence of events — arbitrary mouse deltas, key
events, and updates with arbitrary dt, speed and sensitivity — followed by an
update_camera call, the resulting pitch lies within the symmetric clamp bound
plus or minus (pi/2 - 0.0001); since every update in a sequence is the last
event of some prefix, every update leaves the pitch inside the bound. -/
theorem pitch_clamped (st : Controller × Camera) (evs : List Event) (dt : ℝ) :
    -SAFE_FRAC_PI_2 ≤ (runEvents st (evs ++ [Event.update dt])).2.pitch ∧
    (runEvents st (evs ++ [Event.update dt])).2.pitch ≤ SAFE_FRAC_PI_2 := by
  rw [runEvents, List.foldl_append, List.foldl_cons, List.foldl_nil]
  exact update_camera_pitch_bound _ _ dt

/-- C7: for every camera with 0 < near < far, the projection matrix sends the
center of the near plane, the point (0, 0, -near), to depth 0 and the center
of the far plane, the point (0, 0, -far), to depth 1 after perspective
division. -/
theorem projection_depth_range (cam : Camera)
    (h0 : 0 < cam.near) (hnf : cam.near < cam.far) :
    depthOf (cam.projection.mulVec ⟨0, 0, -cam.near, 1⟩) = 0 ∧
    depthOf (cam.projection.mulVec ⟨0, 0, -cam.far, 1⟩) = 1 := by
  have hn : cam.near ≠ 0 := ne_of_gt h0
  have hf : cam.far ≠ 0 := ne_of_gt (lt_trans h0 hnf)
  have hd : cam.near - cam.far ≠ 0 := sub_ne_zero.mpr (ne_of_lt hnf)
  constructor <;>
  · simp only [Camera.projection, OPENGL_TO_WGPU_MATRIX, perspective, cot,
      Mat4.mul, Mat4.mulVec, depthOf]
    field_simp
    ring

/-- A concrete camera with near plane 1 and far plane 2. -/
noncomputable def cam0 : Camera :=
  { position := ⟨0, 0, 0⟩
    yaw := 0
    pitch := 0
    aspect := 1
    fovy := 1
    near := 1
    far := 2 }

/-- C7 witness: the depth-range mapping at the concrete camera with near 1
and far 2. -/
theorem projection_depth_range_witness :
    depthOf (cam0.projection.mulVec ⟨0, 0, -cam0.near, 1⟩) = 0 ∧
    depthOf (cam0.projection.mulVec ⟨0, 0, -cam0.far, 1⟩) = 1 :=
  projection_depth_range cam0 (by norm_num [cam0]) (by norm_num [cam0])

/-- The position the grid builder computes for cell (x, z). -/
lemma mkInstance_position (x z : ℕ) :
    (mkInstance x z).position = ⟨3 * ((x : ℝ) - 5), 0, 3 * ((z : ℝ) - 5)⟩ := by
  simp [mkInstance, SPACE_BETWEEN, NUM_INSTANCES_PER_ROW]
  norm_num

/-- One grid coordinate puts its position component at zero exactly at index
five. -/
lemma coord_eq_five (x : Fin 10) : 3 * (((x : ℕ) : ℝ) - 5) = 0 ↔ x = 5 := by
  constructor
  · intro h
    have h5 : ((x : ℕ) : ℝ) = 5 := by
      rcases mul_eq_zero.mp h with h3 | hx
      · norm_num at h3
      · linarith
    have hv : (x : ℕ) = 5 := by exact_mod_cast h5
    exact Fin.ext (hv.trans (by decide))
  · rintro rfl
    have hv : ((5 : Fin 10) : ℕ) = 5 := rfl
    rw [hv]
    norm_num

/-- The grid position is the origin exactly at the center cell (5, 5). -/
lemma mkInstance_origin_iff (x z : Fin 10) :
    (mkInstance x.val z.val).position = (⟨0, 0, 0⟩ : V3) ↔ x = 5 ∧ z = 5 := by
  rw [mkInstance_position, V3.mk.injEq]
  constructor
  · rintro ⟨h1, -, h3⟩
    exact ⟨(coord_eq_five x).mp h1, (coord_eq_five z).mp h3⟩
  · rintro ⟨rfl, rfl⟩
    exact ⟨(coord_eq_five 5).mpr rfl, rfl, (coord_eq_five 5).mpr rfl⟩

open Classical in
/-- The rotation the grid builder stores, written through the position
projection. -/
lemma mkInstance_rotation (x z : ℕ) :
    (mkInstance x z).rotation =
      if (mkInstance x z).position = (⟨0, 0, 0⟩ : V3)
      then fromAxisAngle ⟨0, 0, 1⟩ (degToRad 0)
      else fromAxisAngle (V3.normalize (mkInstance x z).position) (degToRad 45) :=
  rfl

/-- A zero-degree axis-angle rotation is the identity quaternion. -/
lemma fromAxisAngle_deg0 : fromAxisAngle ⟨0, 0, 1⟩ (degToRad 0) = idQuat := by
  simp [fromAxisAngle, degToRad, idQuat, V3.smul]

/-- C4: the instance grid has exactly 100 entries, entry z*10+x is the
instance of cell (x, z), its position is 3 times (x - 5, 0, z - 5), the
position is the origin exactly for the center cell x = z = 5, and the stored
rotation is the identity quaternion at the center and a 45-degree axis-angle
rotation about the normalized position everywhere else. -/
theorem instance_grid (x z : Fin 10) :
    instancesList.length = 100 ∧
    instancesList.getD ((z : ℕ) * 10 + (x : ℕ)) (mkInstance 0 0) =
      mkInstance x.val z.val ∧
    (mkInstance x.val z.val).position =
      ⟨3 * ((x.val : ℝ) - 5), 0, 3 * ((z.val : ℝ) - 5)⟩ ∧
    ((mkInstance x.val z.val).position = (⟨0, 0, 0⟩ : V3) ↔ x = 5 ∧ z = 5) ∧
    (mkInstance x.val z.val).rotation =
      (if x = 5 ∧ z = 5 then idQuat
       else fromAxisAngle (V3.normalize (mkInstance x.val z.val).position)
         (degToRad 45)) := by
  refine ⟨rfl, ?_, mkInstance_position _ _, mkInstance_origin_iff x z, ?_⟩
  · fin_cases z <;> fin_cases x <;> rfl
  · classical
    rw [mkInstance_rotation]
    exact if_congr (mkInstance_origin_iff x z) fromAxisAngle_deg0 rfl

end LearnWgpu
